import Mathlib

/-!
Shallow embedding of the Book and Shelf entities of the librarian game
(`src/game/entities/Book.js` and the Shelf source file).

Object identity in JavaScript is modelled by numeric ids: a book's `shelf`
field and a shelf's slots refer to objects by reference in the source; here a
book stores the id of its shelf (`Option Nat`) and a shelf stores book values
in its slot list.  Mutation is modelled by explicit state passing: an
operation that mutates both a shelf and a book returns the updated pair.
Continuous quantities (positions, velocities, timers) are rationals, and the
ambient `Math.random()` values consumed by an operation are passed as explicit
rational arguments.
-/

namespace Librarian

/-- A book entity: the fields of `Book`'s constructor together with the
`Entity` base fields that the modelled methods touch (`x`, `y`, `width`,
`height`, `vx`, `vy`).  Render-only caches (glow canvas) are omitted. -/
structure Book where
  id : Nat
  x : ℚ
  y : ℚ
  width : ℚ
  height : ℚ
  vx : ℚ
  vy : ℚ
  color : String
  isHeld : Bool
  isShelved : Bool
  holder : Option Nat
  shelf : Option Nat
  friction : ℚ
  bounceDecay : ℚ
  gravity : ℚ
  rotation : ℚ
  rotationSpeed : ℚ
  sparkleTimer : ℚ
  glowIntensity : ℚ
  glowDirection : ℚ
  deriving Repr, DecidableEq

/-- The `Book` constructor: `new Book(game, x, y, color)` (the `game` handle
is not part of the modelled state; the unique id is a parameter standing for
the `Date.now()`/`Math.random()` generated string). -/
def Book.new (id : Nat) (x y : ℚ) (color : String) : Book :=
  { id := id, x := x, y := y, width := 16, height := 20, vx := 0, vy := 0
    color := color, isHeld := false, isShelved := false
    holder := none, shelf := none
    friction := 9/10, bounceDecay := 7/10, gravity := 0
    rotation := 0, rotationSpeed := 0, sparkleTimer := 0
    glowIntensity := 0, glowDirection := 1 }

/-- A shelf entity: constructor fields plus the `Entity` base fields used by
the modelled methods.  `id` stands for the object's reference identity. -/
structure Shelf where
  id : Nat
  x : ℚ
  y : ℚ
  width : ℚ
  height : ℚ
  color : String
  capacity : Nat
  books : List (Option Book)
  emptySlotGlow : ℚ
  emptySlotGlowDirection : ℚ
  deriving Repr, DecidableEq

/-- The `Shelf` constructor: `new Shelf(game, x, y, color, capacity = 6)`. -/
def Shelf.new (id : Nat) (x y : ℚ) (color : String) (capacity : Nat := 6) : Shelf :=
  { id := id, x := x, y := y, width := 64, height := 96
    color := color, capacity := capacity
    books := List.replicate capacity none
    emptySlotGlow := 0, emptySlotGlowDirection := 1 }

/-- `Book.pickup(holder)`. -/
def Book.pickup (b : Book) (holder : Nat) : Book :=
  { b with isHeld := true, holder := some holder
           vx := 0, vy := 0, rotation := 0, rotationSpeed := 0 }

/-- `Book.drop(x, y, throwVelocity = null)`; `rot` stands for the
`(Math.random() - 0.5) * 10` rotation speed drawn when a throw velocity is
supplied. -/
def Book.drop (b : Book) (x y : ℚ) (throwVelocity : Option (ℚ × ℚ)) (rot : ℚ) : Book :=
  match throwVelocity with
  | some v =>
      { b with isHeld := false, holder := none, x := x, y := y
               vx := v.1, vy := v.2, rotationSpeed := rot }
  | none =>
      { b with isHeld := false, holder := none, x := x, y := y }

/-- `Book.shelve(shelf = null)`; the shelf reference is its id. -/
def Book.shelve (b : Book) (shelf : Option Nat) : Book :=
  { b with isShelved := true, isHeld := false, holder := none, shelf := shelf
           vx := 0, vy := 0, rotation := 0, rotationSpeed := 0 }

/-- `Book.unshelve()`. -/
def Book.unshelve (b : Book) : Book :=
  { b with isShelved := false, shelf := none }

/-- The axis-aligned overlap test from `Book.update`:
`!(x + w < s.x || x > s.x + s.width || y + h < s.y || y > s.y + s.height)`. -/
def overlapsShelf (x y w h : ℚ) (s : Shelf) : Bool :=
  !(decide (x + w < s.x) || decide (x > s.x + s.width) ||
    decide (y + h < s.y) || decide (y > s.y + s.height))

/-- The first shelf of the collection that the book at tentative position
`(x, y)` overlaps, if any (the `for`/`break` scan in `Book.update`). -/
def collidingShelf (x y w h : ℚ) (shelves : List Shelf) : Option Shelf :=
  shelves.find? (overlapsShelf x y w h)

/-- The end-of-update rest clamp: zero both components when each magnitude is
below 5. -/
def restClamp (vx vy : ℚ) : ℚ × ℚ :=
  if |vx| < 5 ∧ |vy| < 5 then (0, 0) else (vx, vy)

/-- `Book.update(deltaTime)`.  `shelves` is the current state's shelf
collection (empty when there is no current state); `r1`, `r2` are the two
`Math.random()` draws consumed by the collision jitter. -/
def Book.update (b : Book) (dt : ℚ) (shelves : List Shelf) (r1 r2 : ℚ) : Book :=
  if b.isHeld then b
  else
    let vx1 := b.vx * b.friction
    let vy1 := b.vy * b.friction
    let x1 := b.x + vx1 * dt
    let y1 := b.y + vy1 * dt
    let moved : ℚ × ℚ × ℚ × ℚ :=
      if b.isShelved then (x1, y1, vx1, vy1)
      else
        match collidingShelf x1 y1 b.width b.height shelves with
        | some _ =>
            (b.x, b.y, -vx1 * (1/2) + (r1 - 1/2) * 20, -vy1 * (1/2) + (r2 - 1/2) * 20)
        | none => (x1, y1, vx1, vy1)
    let g := b.glowIntensity + b.glowDirection * dt * 2
    let glow : ℚ × ℚ :=
      if g ≥ 1 then (1, -1)
      else if g ≤ 3/10 then (3/10, 1)
      else (g, b.glowDirection)
    let v := restClamp moved.2.2.1 moved.2.2.2
    { b with x := moved.1, y := moved.2.1, vx := v.1, vy := v.2
             rotation := b.rotation + b.rotationSpeed * dt
             rotationSpeed := b.rotationSpeed * (95/100)
             sparkleTimer := b.sparkleTimer + dt
             glowIntensity := glow.1, glowDirection := glow.2 }

/-- Number of occupied (non-null) slots:
`this.books.filter(book => book !== null).length`. -/
def Shelf.occupiedCount (s : Shelf) : Nat :=
  (s.books.filter fun slot => slot.isSome).length

/-- `Shelf.hasEmptySlots()`. -/
def Shelf.hasEmptySlots (s : Shelf) : Bool :=
  decide (s.occupiedCount < s.capacity)

/-- `Shelf.getEmptySlotCount()` (an integer, as in the source: capacity minus
occupied count, without truncation). -/
def Shelf.getEmptySlotCount (s : Shelf) : Int :=
  (s.capacity : Int) - (s.occupiedCount : Int)

/-- The first-empty-slot scan of `Shelf.addBook`:
`while (slotIndex < this.capacity && this.books[slotIndex]) slotIndex++`.
An out-of-bounds read yields `undefined` (falsy), modelled by `getD _ none`. -/
def Shelf.findSlot (s : Shelf) (i : Nat) : Nat :=
  if i < s.capacity ∧ (s.books.getD i none).isSome then s.findSlot (i + 1) else i
termination_by s.capacity - i
decreasing_by
  omega

/-- `Shelf.addBook(book)`: returns the boolean result together with the
updated shelf and book (the slot stores the book after its `shelve(this)`
call, as the JavaScript slot aliases the mutated object). -/
def Shelf.addBook (s : Shelf) (b : Book) : Bool × Shelf × Book :=
  if ¬ s.hasEmptySlots ∨ b.color ≠ s.color then (false, s, b)
  else
    let slotIndex := s.findSlot 0
    if slotIndex < s.capacity then
      let shelved := b.shelve (some s.id)
      (true, { s with books := s.books.set slotIndex (some shelved) }, shelved)
    else (false, s, b)

/-- `Shelf.removeBook(index)`: the guard is
`index >= 0 && index < this.books.length && this.books[index]`; the returned
book aliases the mutated (unshelved) object. -/
def Shelf.removeBook (s : Shelf) (index : Int) : Option Book × Shelf :=
  if 0 ≤ index ∧ index < (s.books.length : Int) then
    match s.books.getD index.toNat none with
    | some b => (some b.unshelve, { s with books := s.books.set index.toNat none })
    | none => (none, s)
  else (none, s)

/-- The occupied-slot index list built by `Shelf.removeRandomBook`. -/
def Shelf.bookIndices (s : Shelf) : List Nat :=
  (List.range s.books.length).filter fun i => (s.books.getD i none).isSome

/-- `Shelf.removeRandomBook()`; `r` is the `Math.random()` draw.  When
`⌊r * len⌋` is outside the index list (impossible for `r ∈ [0,1)`), the
JavaScript indexes `undefined` and `removeBook(undefined)` returns null. -/
def Shelf.removeRandomBook (s : Shelf) (r : ℚ) : Option Book × Shelf :=
  let idxs := s.bookIndices
  if idxs.length = 0 then (none, s)
  else
    let k := ⌊r * (idxs.length : ℚ)⌋
    if 0 ≤ k ∧ k < (idxs.length : Int) then
      s.removeBook (idxs.getD k.toNat 0 : Nat)
    else (none, s)

/-- `Shelf.update(deltaTime)`; `playerHasMatchingBook` is the cross-entity
query `state.player.carriedBooks.some(book => book.color === this.color)`
(false when there is no current state or player). -/
def Shelf.update (s : Shelf) (dt : ℚ) (playerHasMatchingBook : Bool) : Shelf :=
  if s.hasEmptySlots then
    let glowSpeed : ℚ := if playerHasMatchingBook then 4 else 2
    let maxGlow : ℚ := if playerHasMatchingBook then 1 else 7/10
    let minGlow : ℚ := if playerHasMatchingBook then 1/2 else 3/10
    let g := s.emptySlotGlow + s.emptySlotGlowDirection * dt * glowSpeed
    if g ≥ maxGlow then { s with emptySlotGlow := maxGlow, emptySlotGlowDirection := -1 }
    else if g ≤ minGlow then { s with emptySlotGlow := minGlow, emptySlotGlowDirection := 1 }
    else { s with emptySlotGlow := g }
  else { s with emptySlotGlow := 0 }

/-- The grid placement of a valid book in slot `index` during
`Shelf.renderBooks` (slotsPerRow = 3). -/
def Shelf.placeBook (s : Shelf) (index : Nat) (b : Book) : Book :=
  let slotWidth := s.width / 3
  let row : Nat := index / 3
  let col : Nat := index % 3
  { b with x := s.x + (col : ℚ) * slotWidth + (slotWidth - b.width) / 2
           y := s.y + 24 + (row : ℚ) * 24 }

/-- The effect of one `Shelf.renderBooks` iteration on slot `index`: a
non-null slot whose book is not shelved or does not reference this shelf back
is nulled silently; a valid slot's book is repositioned on the grid (and
rendered). -/
def Shelf.renderSlot (s : Shelf) (index : Nat) : Option Book → Option Book
  | none => none
  | some b =>
      if b.isShelved ∧ b.shelf = some s.id then some (s.placeBook index b) else none

/-- The slot-by-slot pass of `Shelf.renderBooks` (`forEach` with running
index). -/
def Shelf.renderSlots (s : Shelf) : List (Option Book) → Nat → List (Option Book)
  | [], _ => []
  | slot :: rest, i => s.renderSlot i slot :: s.renderSlots rest (i + 1)

/-- The state effect of `Shelf.renderBooks(ctx)` on the shelf (drawing calls
have no modelled state). -/
def Shelf.renderBooks (s : Shelf) : Shelf :=
  { s with books := s.renderSlots s.books 0 }

/-- One shelf operation of the lifetime API (the mutating methods a shelf
receives between construction and rendering). -/
inductive ShelfOp where
  | add (b : Book)
  | remove (i : Int)
  | removeRandom (r : ℚ)
  | tick (dt : ℚ) (playerHasMatchingBook : Bool)
  deriving Repr

/-- Apply one operation to a shelf, keeping only the shelf state. -/
def Shelf.applyOp (s : Shelf) : ShelfOp → Shelf
  | .add b => (s.addBook b).2.1
  | .remove i => (s.removeBook i).2
  | .removeRandom r => (s.removeRandomBook r).2
  | .tick dt p => s.update dt p

/-- Apply a sequence of operations to a shelf. -/
def Shelf.applyOps (s : Shelf) (ops : List ShelfOp) : Shelf :=
  ops.foldl Shelf.applyOp s

/-- The per-frame inputs of one `Book.update` call: the delta time, the
current state's shelf collection and the two `Math.random()` draws. -/
structure UpdIn where
  dt : ℚ
  shelves : List Shelf
  r1 : ℚ
  r2 : ℚ

/-- One `Book.update` call with packaged inputs. -/
def Book.applyUpd (b : Book) (u : UpdIn) : Book :=
  b.update u.dt u.shelves u.r1 u.r2

/-- A sequence of `Book.update` calls. -/
def Book.updateSeq (b : Book) (us : List UpdIn) : Book :=
  us.foldl Book.applyUpd b

/-- Whether this update call takes the shelf-collision branch: the book is
not shelved and its tentatively moved position overlaps some shelf. -/
def Book.collides (b : Book) (u : UpdIn) : Bool :=
  !b.isShelved &&
    (collidingShelf (b.x + b.vx * b.friction * u.dt) (b.y + b.vy * b.friction * u.dt)
        b.width b.height u.shelves).isSome

/-- No update call of the sequence takes the collision branch. -/
def Book.seqNoCollide (b : Book) : List UpdIn → Bool
  | [] => true
  | u :: us => !b.collides u && (b.applyUpd u).seqNoCollide us

/-- A concrete red book resting inside the bounding box of `wShelf`, moving
rightwards; used as a concrete update-collision input. -/
def wMovingBook : Book :=
  { Book.new 5 100 100 "red" with vx := 80/3 }

/-- A concrete red shelf at (90, 90); its 64 × 96 bounding box contains
`wMovingBook`. -/
def wShelf : Shelf :=
  Shelf.new 1 90 90 "red" 6

/-- A concrete freshly constructed book (glow intensity 0, direction 1). -/
def wFreshBook : Book :=
  Book.new 7 500 500 "red"

/-- A concrete free book in the steady glow regime with a slow velocity. -/
def wSlowBook : Book :=
  { Book.new 8 500 500 "red" with vx := 4, vy := -3, glowIntensity := 1/2 }

/-- A concrete shelved red book referencing shelf id 2. -/
def wShelvedBook : Book :=
  (Book.new 11 0 0 "red").shelve (some 2)

/-- A concrete held book. -/
def wHeldBook : Book :=
  (Book.new 12 30 40 "red").pickup 9

/-- A concrete two-slot shelf whose slot 0 holds a properly shelved book. -/
def wSmallShelf : Shelf :=
  { Shelf.new 3 0 0 "red" 2 with
      books := [some ((Book.new 21 0 0 "red").shelve (some 3)), none] }

/-- A concrete shelf whose only non-null slot holds a stale book (not
shelved, so slot validation fails). -/
def wStaleShelf : Shelf :=
  { Shelf.new 4 0 0 "red" 2 with
      books := [some (Book.new 22 0 0 "red"), none] }

/-- A concrete update input with no shelves present. -/
def wNoShelfUpd : UpdIn :=
  { dt := 1, shelves := [], r1 := 0, r2 := 0 }

/-- C4: `pickup` on a shelved book sets `isHeld` and `holder` while leaving
`isShelved` true and the shelf reference intact, so both state flags hold at
once (the mutual-exclusion invariant is violated); it also zeroes velocity,
rotation and rotation speed. -/
theorem pickup_shelved_violates_exclusion (b : Book) (h : Nat) (hs : b.isShelved = true) :
    (b.pickup h).isHeld = true ∧ (b.pickup h).isShelved = true ∧
    (b.pickup h).shelf = b.shelf ∧ (b.pickup h).holder = some h ∧
    (b.pickup h).vx = 0 ∧ (b.pickup h).vy = 0 ∧
    (b.pickup h).rotation = 0 ∧ (b.pickup h).rotationSpeed = 0 := by
  simp [Book.pickup, hs]

/-- Witness for C4 at a concrete shelved book. -/
theorem pickup_shelved_violates_exclusion_witness :
    (wShelvedBook.pickup 9).isHeld = true ∧ (wShelvedBook.pickup 9).isShelved = true ∧
    (wShelvedBook.pickup 9).shelf = wShelvedBook.shelf ∧
    (wShelvedBook.pickup 9).holder = some 9 ∧
    (wShelvedBook.pickup 9).vx = 0 ∧ (wShelvedBook.pickup 9).vy = 0 ∧
    (wShelvedBook.pickup 9).rotation = 0 ∧ (wShelvedBook.pickup 9).rotationSpeed = 0 :=
  pickup_shelved_violates_exclusion wShelvedBook 9 rfl

/-- C6: `update` on a held book changes nothing at all — the book state
(position, velocity, rotation, rotation speed, sparkle timer, glow state and
every other field) is returned unchanged. -/
theorem held_update_noop (b : Book) (dt : ℚ) (shelves : List Shelf) (r1 r2 : ℚ)
    (hheld : b.isHeld = true) :
    b.update dt shelves r1 r2 = b := by
  simp [Book.update, hheld]

/-- Witness for C6 at a concrete held book. -/
theorem held_update_noop_witness :
    wHeldBook.update 1 [wShelf] (1/2) (1/2) = wHeldBook :=
  held_update_noop wHeldBook 1 [wShelf] (1/2) (1/2) rfl

/-- C10: a failed `addBook` is atomic — when it returns false, the shelf and
the book are both completely unchanged. -/
theorem addBook_failure_atomic (s : Shelf) (b : Book)
    (hfail : (s.addBook b).1 = false) :
    (s.addBook b).2.1 = s ∧ (s.addBook b).2.2 = b := by
  unfold Shelf.addBook at hfail ⊢
  by_cases hg : ¬ s.hasEmptySlots ∨ b.color ≠ s.color
  · rw [if_pos hg]
    exact ⟨rfl, rfl⟩
  · rw [if_neg hg] at hfail ⊢
    by_cases hi : s.findSlot 0 < s.capacity
    · simp [hi] at hfail
    · simp [hi]

/-- Witness for C10 at a concrete color-mismatched insertion. -/
theorem addBook_failure_atomic_witness :
    (wShelf.addBook (Book.new 2 0 0 "blue")).2.1 = wShelf ∧
    (wShelf.addBook (Book.new 2 0 0 "blue")).2.2 = Book.new 2 0 0 "blue" :=
  addBook_failure_atomic wShelf (Book.new 2 0 0 "blue") (by decide)

/-- C2: `removeBook(i)` on an in-range occupied slot returns exactly that
book with `unshelve` applied (identity preserved, `isShelved` cleared, shelf
reference cleared), nulls slot `i` and leaves every other slot unchanged; on
an out-of-range or empty slot it returns null and leaves the shelf
unchanged. -/
theorem removeBook_spec (s : Shelf) (i : Int) :
    (∀ b : Book, 0 ≤ i → i < (s.books.length : Int) →
        s.books.getD i.toNat none = some b →
        s.removeBook i =
          (some b.unshelve, { s with books := s.books.set i.toNat none }) ∧
        b.unshelve.isShelved = false ∧ b.unshelve.shelf = none ∧
        b.unshelve.id = b.id ∧
        (s.removeBook i).2.books.getD i.toNat none = none ∧
        ∀ j : Nat, j ≠ i.toNat →
          (s.removeBook i).2.books.getD j none = s.books.getD j none) ∧
    ((¬ (0 ≤ i ∧ i < (s.books.length : Int)) ∨ s.books.getD i.toNat none = none) →
        s.removeBook i = (none, s)) := by
  constructor
  · intro b h0 hlen hb
    have hin : 0 ≤ i ∧ i < (s.books.length : Int) := ⟨h0, hlen⟩
    have hrem : s.removeBook i =
        (some b.unshelve, { s with books := s.books.set i.toNat none }) := by
      unfold Shelf.removeBook
      rw [if_pos hin, hb]
    have htn : i.toNat < s.books.length := by omega
    refine ⟨hrem, rfl, rfl, rfl, ?_, ?_⟩
    · rw [hrem]
      simp [List.getD_eq_getElem?_getD, List.getElem?_set_self htn]
    · intro j hj
      rw [hrem]
      simp [List.getD_eq_getElem?_getD, List.getElem?_set_ne (by omega : i.toNat ≠ j)]
  · intro h
    unfold Shelf.removeBook
    rcases h with h | h
    · rw [if_neg h]
    · by_cases hin : 0 ≤ i ∧ i < (s.books.length : Int)
      · rw [if_pos hin, h]
      · rw [if_neg hin]

/-- Witness for C2: removal of the occupied slot 0 of a concrete shelf, and
removal of its empty slot 1. -/
theorem removeBook_spec_witness :
    wSmallShelf.removeBook 0 =
      (some ((Book.new 21 0 0 "red").shelve (some 3)).unshelve,
        { wSmallShelf with books := wSmallShelf.books.set 0 none }) ∧
    wSmallShelf.removeBook 1 = (none, wSmallShelf) :=
  ⟨((removeBook_spec wSmallShelf 0).1 ((Book.new 21 0 0 "red").shelve (some 3))
      (by decide) (by decide) rfl).1,
    (removeBook_spec wSmallShelf 1).2 (Or.inr (by decide))⟩

/-- Index-wise description of the `renderBooks` slot pass. -/
theorem renderSlots_getElem? (s : Shelf) (l : List (Option Book)) (i j : Nat) :
    (s.renderSlots l i)[j]? = (l[j]?).map (s.renderSlot (i + j)) := by
  induction l generalizing i j with
  | nil => simp [Shelf.renderSlots]
  | cons slot rest ih =>
    cases j with
    | zero => simp [Shelf.renderSlots]
    | succ j =>
      simp only [Shelf.renderSlots, List.getElem?_cons_succ]
      rw [ih (i + 1) j, show i + 1 + j = i + (j + 1) from by omega]

/-- C9: the `renderBooks` pass self-heals stale slots: a non-null slot whose
book is not shelved or does not reference this shelf back is silently set to
null, and afterwards every remaining non-null slot's book reports `isShelved`
and references this shelf. -/
theorem renderBooks_self_heals (s : Shelf) :
    (∀ (idx : Nat) (b : Book), (s.renderBooks).books[idx]? = some (some b) →
        b.isShelved = true ∧ b.shelf = some s.id) ∧
    (∀ (idx : Nat) (b : Book), s.books[idx]? = some (some b) →
        ¬ (b.isShelved = true ∧ b.shelf = some s.id) →
        (s.renderBooks).books[idx]? = some none) := by
  constructor
  · intro idx b hb
    unfold Shelf.renderBooks at hb
    rw [renderSlots_getElem?] at hb
    cases hmem : s.books[idx]? with
    | none => rw [hmem] at hb; simp at hb
    | some slot =>
      rw [hmem] at hb
      simp only [Option.map_some', Option.some.injEq] at hb
      cases slot with
      | none => simp [Shelf.renderSlot] at hb
      | some b0 =>
        by_cases hv : b0.isShelved = true ∧ b0.shelf = some s.id
        · simp only [Shelf.renderSlot, hv, and_self, if_true, Option.some.injEq] at hb
          rw [← hb]
          exact ⟨hv.1, hv.2⟩
        · simp only [Shelf.renderSlot] at hb
          rw [if_neg (by exact_mod_cast hv)] at hb
          simp at hb
  · intro idx b hb hinvalid
    unfold Shelf.renderBooks
    rw [renderSlots_getElem?, hb]
    simp only [Option.map_some', Option.some.injEq]
    simp only [Shelf.renderSlot]
    rw [if_neg (by exact_mod_cast hinvalid)]

/-- Witness for C9 at a concrete shelf holding one stale book reference. -/
theorem renderBooks_self_heals_witness :
    (wStaleShelf.renderBooks).books[0]? = some none :=
  (renderBooks_self_heals wStaleShelf).2 0 (Book.new 22 0 0 "red") rfl (by decide)

/-- Every index the `addBook` scan passes over holds an occupied slot. -/
theorem findSlot_occupied (s : Shelf) (i j : Nat) (hij : i ≤ j) (hj : j < s.findSlot i) :
    (s.books.getD j none).isSome = true := by
  rw [Shelf.findSlot] at hj
  split at hj
  · next h =>
    rcases Nat.eq_or_lt_of_le hij with rfl | hlt
    · exact h.2
    · exact findSlot_occupied s (i + 1) j hlt hj
  · omega
termination_by s.capacity - i
decreasing_by omega

/-- When the `addBook` scan stops before capacity, it stops on an empty
slot. -/
theorem findSlot_empty (s : Shelf) (i : Nat) (h : s.findSlot i < s.capacity) :
    s.books.getD (s.findSlot i) none = none := by
  by_cases hcond : i < s.capacity ∧ (s.books.getD i none).isSome = true
  · have hstep : s.findSlot i = s.findSlot (i + 1) := by
      rw [Shelf.findSlot, if_pos hcond]
    rw [hstep] at h ⊢
    exact findSlot_empty s (i + 1) h
  · have hstop : s.findSlot i = i := by
      rw [Shelf.findSlot, if_neg hcond]
    rw [hstop] at h ⊢
    have hns : ¬ (s.books.getD i none).isSome = true := fun hs => hcond ⟨h, hs⟩
    exact Option.not_isSome_iff_eq_none.mp hns
termination_by s.capacity - i
decreasing_by omega

/-- A shelf with full-length slot array and an empty slot reported by
`hasEmptySlots` has an empty slot at some index below capacity. -/
theorem exists_empty_slot (s : Shelf) (hlen : s.books.length = s.capacity)
    (h : s.hasEmptySlots = true) :
    ∃ j, j < s.capacity ∧ s.books.getD j none = none := by
  by_contra hno
  push_neg at hno
  have hall : ∀ slot ∈ s.books, slot.isSome = true := by
    intro slot hslot
    obtain ⟨j, hj, hget⟩ := List.getElem_of_mem hslot
    have hj2 : j < s.capacity := hlen ▸ hj
    have hne := hno j hj2
    rw [List.getD_eq_getElem _ _ hj, hget] at hne
    exact Option.ne_none_iff_isSome.mp hne
  have hocc : s.occupiedCount = s.books.length :=
    List.filter_length_eq_length.mpr hall
  unfold Shelf.hasEmptySlots at h
  rw [decide_eq_true_eq] at h
  unfold Shelf.occupiedCount at hocc
  unfold Shelf.occupiedCount at h
  omega

/-- C1: `addBook` fails (returning false, changing nothing) when the shelf
reports no empty slot or the colors mismatch; otherwise it succeeds, placing
the shelved book in the lowest-indexed empty slot, leaving all other slots
unchanged, with the book now shelved and referencing this shelf. -/
theorem addBook_spec (s : Shelf) (b : Book) (hlen : s.books.length = s.capacity) :
    ((s.hasEmptySlots = false ∨ b.color ≠ s.color) → s.addBook b = (false, s, b)) ∧
    (s.hasEmptySlots = true → b.color = s.color →
      ∃ i : Nat, i < s.capacity ∧
        s.books.getD i none = none ∧
        (∀ j : Nat, j < i → (s.books.getD j none).isSome = true) ∧
        s.addBook b =
          (true, { s with books := s.books.set i (some (b.shelve (some s.id))) },
            b.shelve (some s.id)) ∧
        (b.shelve (some s.id)).isShelved = true ∧
        (b.shelve (some s.id)).shelf = some s.id ∧
        (∀ j : Nat, j ≠ i →
          (s.addBook b).2.1.books.getD j none = s.books.getD j none)) := by
  constructor
  · intro h
    unfold Shelf.addBook
    have hg : ¬ s.hasEmptySlots = true ∨ b.color ≠ s.color := by
      rcases h with h | h
      · exact Or.inl (by simp [h])
      · exact Or.inr h
    rw [if_pos hg]
  · intro hemp hcol
    obtain ⟨j0, hj0c, hj0none⟩ := exists_empty_slot s hlen hemp
    have hile : s.findSlot 0 ≤ j0 := by
      by_contra hgt
      push_neg at hgt
      have hocc := findSlot_occupied s 0 j0 (Nat.zero_le _) hgt
      rw [hj0none] at hocc
      simp at hocc
    have hic : s.findSlot 0 < s.capacity := lt_of_le_of_lt hile hj0c
    have hinone : s.books.getD (s.findSlot 0) none = none := findSlot_empty s 0 hic
    have hg2 : ¬ (¬ s.hasEmptySlots = true ∨ b.color ≠ s.color) := by
      push_neg
      exact ⟨by simp [hemp], hcol⟩
    have hadd : s.addBook b =
        (true, { s with books := s.books.set (s.findSlot 0) (some (b.shelve (some s.id))) },
          b.shelve (some s.id)) := by
      unfold Shelf.addBook
      rw [if_neg hg2]
      show (if s.findSlot 0 < s.capacity then
              (true,
                { s with books := s.books.set (s.findSlot 0) (some (b.shelve (some s.id))) },
                b.shelve (some s.id))
            else (false, s, b)) = _
      rw [if_pos hic]
    refine ⟨s.findSlot 0, hic, hinone, ?_, hadd, rfl, rfl, ?_⟩
    · intro j hj
      exact findSlot_occupied s 0 j (Nat.zero_le _) hj
    · intro j hj
      rw [hadd]
      simp [List.getD_eq_getElem?_getD,
        List.getElem?_set_ne (fun he => hj (he ▸ rfl) : s.findSlot 0 ≠ j)]

/-- Witness for C1: a color-mismatched `addBook` on a concrete shelf fails
and changes nothing. -/
theorem addBook_spec_witness :
    wShelf.addBook (Book.new 2 5 5 "blue") = (false, wShelf, Book.new 2 5 5 "blue") :=
  (addBook_spec wShelf (Book.new 2 5 5 "blue") (by decide)).1 (Or.inr (by decide))

/-- C7: throughout a shelf's lifetime (any sequence of `addBook`,
`removeBook`, `removeRandomBook` and `update` calls after construction), the
occupied-slot count plus `getEmptySlotCount()` equals the capacity, and
`hasEmptySlots()` is true exactly when the occupied count is below
capacity. -/
theorem slot_accounting_invariant (id : Nat) (x y : ℚ) (color : String)
    (capacity : Nat) (ops : List ShelfOp) :
    ((((Shelf.new id x y color capacity).applyOps ops).occupiedCount : Int) +
        ((Shelf.new id x y color capacity).applyOps ops).getEmptySlotCount =
      ((((Shelf.new id x y color capacity).applyOps ops).capacity : Int))) ∧
    (((Shelf.new id x y color capacity).applyOps ops).hasEmptySlots = true ↔
      ((Shelf.new id x y color capacity).applyOps ops).occupiedCount <
        ((Shelf.new id x y color capacity).applyOps ops).capacity) := by
  constructor
  · unfold Shelf.getEmptySlotCount
    ring
  · unfold Shelf.hasEmptySlots
    exact decide_eq_true_iff

/-- One update call leaves the held flag, the shelved flag and the friction
coefficient unchanged. -/
theorem applyUpd_flags (b : Book) (u : UpdIn) :
    (b.applyUpd u).isHeld = b.isHeld ∧ (b.applyUpd u).isShelved = b.isShelved ∧
    (b.applyUpd u).friction = b.friction := by
  unfold Book.applyUpd Book.update
  split
  · exact ⟨rfl, rfl, rfl⟩
  · exact ⟨rfl, rfl, rfl⟩

/-- The rest clamp never increases a component's magnitude. -/
theorem restClamp_le (vx vy : ℚ) :
    |(restClamp vx vy).1| ≤ |vx| ∧ |(restClamp vx vy).2| ≤ |vy| := by
  unfold restClamp
  split
  · simp [abs_nonneg]
  · exact ⟨le_refl _, le_refl _⟩

/-- The rest clamp zeroes both components when both are small. -/
theorem restClamp_zero (vx vy : ℚ) (h1 : |vx| < 5) (h2 : |vy| < 5) :
    restClamp vx vy = (0, 0) := by
  unfold restClamp
  rw [if_pos ⟨h1, h2⟩]

/-- In a collision-free, unheld update the final velocity is exactly the
friction-scaled velocity fed through the rest clamp. -/
theorem applyUpd_velocity_noCollide (b : Book) (u : UpdIn) (hheld : b.isHeld = false)
    (hnc : b.collides u = false) :
    (b.applyUpd u).vx = (restClamp (b.vx * b.friction) (b.vy * b.friction)).1 ∧
    (b.applyUpd u).vy = (restClamp (b.vx * b.friction) (b.vy * b.friction)).2 := by
  unfold Book.applyUpd Book.update
  rw [if_neg (by simp [hheld])]
  by_cases hsh : b.isShelved = true
  · simp [hsh]
  · have hsh2 : b.isShelved = false := by simpa using hsh
    have hnone : collidingShelf (b.x + b.vx * b.friction * u.dt)
        (b.y + b.vy * b.friction * u.dt) b.width b.height u.shelves = none := by
      unfold Book.collides at hnc
      rw [hsh2] at hnc
      simp only [Bool.not_false, Bool.true_and] at hnc
      exact Option.not_isSome_iff_eq_none.mp (by simp [hnc])
    simp [hsh2, hnone]

/-- One collision-free update of an unheld book with friction 9/10 never
increases a velocity component's magnitude, and zeroes the velocity once both
components are below 5. -/
theorem step_decay (b : Book) (u : UpdIn) (hheld : b.isHeld = false)
    (hfr : b.friction = 9/10) (hnc : b.collides u = false) :
    |(b.applyUpd u).vx| ≤ |b.vx| ∧ |(b.applyUpd u).vy| ≤ |b.vy| ∧
    (|b.vx| < 5 → |b.vy| < 5 → (b.applyUpd u).vx = 0 ∧ (b.applyUpd u).vy = 0) := by
  obtain ⟨hvx, hvy⟩ := applyUpd_velocity_noCollide b u hheld hnc
  have hfx : |b.vx * b.friction| ≤ |b.vx| := by
    rw [hfr, abs_mul]
    calc |b.vx| * |(9/10 : ℚ)| ≤ |b.vx| * 1 := by
            apply mul_le_mul_of_nonneg_left (by norm_num [abs_le]) (abs_nonneg _)
      _ = |b.vx| := mul_one _
  have hfy : |b.vy * b.friction| ≤ |b.vy| := by
    rw [hfr, abs_mul]
    calc |b.vy| * |(9/10 : ℚ)| ≤ |b.vy| * 1 := by
            apply mul_le_mul_of_nonneg_left (by norm_num [abs_le]) (abs_nonneg _)
      _ = |b.vy| := mul_one _
  refine ⟨?_, ?_, ?_⟩
  · rw [hvx]
    exact le_trans (restClamp_le _ _).1 hfx
  · rw [hvy]
    exact le_trans (restClamp_le _ _).2 hfy
  · intro h5x h5y
    have hz := restClamp_zero (b.vx * b.friction) (b.vy * b.friction)
      (lt_of_le_of_lt hfx h5x) (lt_of_le_of_lt hfy h5y)
    rw [hvx, hvy, hz]
    exact ⟨rfl, rfl⟩

/-- Splitting an update sequence. -/
theorem updateSeq_append (b : Book) (us vs : List UpdIn) :
    b.updateSeq (us ++ vs) = (b.updateSeq us).updateSeq vs := by
  unfold Book.updateSeq
  exact List.foldl_append Book.applyUpd b us vs

/-- A collision-free sequence is collision-free in both halves. -/
theorem seqNoCollide_append (b : Book) (us vs : List UpdIn)
    (h : b.seqNoCollide (us ++ vs) = true) :
    (b.updateSeq us).seqNoCollide vs = true ∧ b.seqNoCollide us = true := by
  induction us generalizing b with
  | nil => simpa [Book.seqNoCollide, Book.updateSeq] using h
  | cons u us ih =>
    simp only [List.cons_append, Book.seqNoCollide, Bool.and_eq_true] at h
    obtain ⟨h1, h2⟩ := h
    have hr := ih (b.applyUpd u) h2
    refine ⟨?_, ?_⟩
    · simpa [Book.updateSeq] using hr.1
    · simp [Book.seqNoCollide, h1, hr.2]

/-- The held flag, shelved flag and friction survive an update sequence. -/
theorem updateSeq_flags (b : Book) (us : List UpdIn) :
    (b.updateSeq us).isHeld = b.isHeld ∧ (b.updateSeq us).friction = b.friction := by
  induction us generalizing b with
  | nil => exact ⟨rfl, rfl⟩
  | cons u us ih =>
    have hstep := applyUpd_flags b u
    have hr := ih (b.applyUpd u)
    have hcons : b.updateSeq (u :: us) = (b.applyUpd u).updateSeq us := rfl
    rw [hcons]
    exact ⟨hr.1.trans hstep.1, hr.2.trans hstep.2.2⟩

/-- A book at rest stays exactly at rest along any collision-free update
sequence. -/
theorem updateSeq_zero (b : Book) (us : List UpdIn) (hheld : b.isHeld = false)
    (hfr : b.friction = 9/10) (hnc : b.seqNoCollide us = true)
    (h0x : b.vx = 0) (h0y : b.vy = 0) :
    (b.updateSeq us).vx = 0 ∧ (b.updateSeq us).vy = 0 := by
  induction us generalizing b with
  | nil => exact ⟨h0x, h0y⟩
  | cons u us ih =>
    simp only [Book.seqNoCollide, Bool.and_eq_true] at hnc
    have hstep := step_decay b u hheld hfr (by simpa using hnc.1)
    have h1 := hstep.2.2 (by rw [h0x]; norm_num) (by rw [h0y]; norm_num)
    have hflags := applyUpd_flags b u
    have hcons : b.updateSeq (u :: us) = (b.applyUpd u).updateSeq us := rfl
    rw [hcons]
    exact ih (b.applyUpd u) (hflags.1.trans hheld) (hflags.2.2.trans hfr)
      hnc.2 h1.1 h1.2

/-- C5: along any collision-free sequence of updates of a free book (no
externally applied force, never overlapping a shelf at the tentative
position), each velocity component's magnitude is non-increasing from one
update to the next, and once both components' magnitudes are below 5 the
velocity is exactly (0, 0) by the end of the sequence and stays there. -/
theorem free_book_velocity_decay (b : Book) (us : List UpdIn)
    (hheld : b.isHeld = false) (_hshelved : b.isShelved = false)
    (hfr : b.friction = 9/10) (hnc : b.seqNoCollide us = true) :
    (∀ pre u post, us = pre ++ u :: post →
        |((b.updateSeq pre).applyUpd u).vx| ≤ |(b.updateSeq pre).vx| ∧
        |((b.updateSeq pre).applyUpd u).vy| ≤ |(b.updateSeq pre).vy|) ∧
    (∀ pre post, us = pre ++ post → post ≠ [] →
        |(b.updateSeq pre).vx| < 5 → |(b.updateSeq pre).vy| < 5 →
        (b.updateSeq us).vx = 0 ∧ (b.updateSeq us).vy = 0) := by
  constructor
  · intro pre u post heq
    subst heq
    have hsplit := seqNoCollide_append b pre (u :: post) hnc
    have hmid := hsplit.1
    simp only [Book.seqNoCollide, Bool.and_eq_true] at hmid
    have hflags := updateSeq_flags b pre
    have hstep := step_decay (b.updateSeq pre) u (hflags.1.trans hheld)
      (hflags.2.trans hfr) (by simpa using hmid.1)
    exact ⟨hstep.1, hstep.2.1⟩
  · intro pre post heq hne h5x h5y
    subst heq
    rw [updateSeq_append]
    cases post with
    | nil => exact absurd rfl hne
    | cons u rest =>
      have hsplit := seqNoCollide_append b pre (u :: rest) hnc
      have hmid := hsplit.1
      simp only [Book.seqNoCollide, Bool.and_eq_true] at hmid
      have hflags := updateSeq_flags b pre
      have hstep := step_decay (b.updateSeq pre) u (hflags.1.trans hheld)
        (hflags.2.trans hfr) (by simpa using hmid.1)
      have h0 := hstep.2.2 h5x h5y
      have hflags2 := applyUpd_flags (b.updateSeq pre) u
      have hcons : (b.updateSeq pre).updateSeq (u :: rest) =
          ((b.updateSeq pre).applyUpd u).updateSeq rest := rfl
      rw [hcons]
      exact updateSeq_zero ((b.updateSeq pre).applyUpd u) rest
        (hflags2.1.trans (hflags.1.trans hheld))
        (hflags2.2.2.trans (hflags.2.trans hfr)) hmid.2 h0.1 h0.2

/-- Witness for C5: a concrete slow free book comes to exact rest after one
shelf-free update. -/
theorem free_book_velocity_decay_witness :
    (wSlowBook.updateSeq [wNoShelfUpd]).vx = 0 ∧
    (wSlowBook.updateSeq [wNoShelfUpd]).vy = 0 :=
  (free_book_velocity_decay wSlowBook [wNoShelfUpd] rfl rfl rfl (by decide)).2
    [] [wNoShelfUpd] rfl (by simp)
    (by norm_num [Book.updateSeq, wSlowBook, Book.new])
    (by norm_num [Book.updateSeq, wSlowBook, Book.new])

/-- A successful `find?` splits the list at the first witness. -/
theorem find?_split {α : Type} (p : α → Bool) (l : List α) (a : α)
    (h : l.find? p = some a) :
    p a = true ∧ ∃ pre post, l = pre ++ a :: post ∧ ∀ x ∈ pre, p x = false := by
  induction l with
  | nil => simp [List.find?] at h
  | cons hd tl ih =>
    cases hp : p hd with
    | true =>
      rw [List.find?_cons_of_pos tl hp] at h
      obtain rfl : hd = a := by injection h
      exact ⟨hp, [], tl, rfl, by intro x hx; simp at hx⟩
    | false =>
      rw [List.find?_cons_of_neg tl (by simp [hp])] at h
      obtain ⟨hpa, pre, post, heq, hall⟩ := ih h
      refine ⟨hpa, hd :: pre, post, by rw [heq]; rfl, ?_⟩
      intro x hx
      rcases List.mem_cons.mp hx with rfl | hx2
      · exact hp
      · exact hall x hx2

/-- In a colliding, unheld, unshelved update the position reverts to the
pre-update position and the velocity is the reflected-and-halved velocity
plus the jitter terms, fed through the rest clamp. -/
theorem update_collision_eq (b : Book) (dt : ℚ) (shelves : List Shelf) (r1 r2 : ℚ)
    (sh : Shelf) (hheld : b.isHeld = false) (hshelved : b.isShelved = false)
    (hc : collidingShelf (b.x + b.vx * b.friction * dt) (b.y + b.vy * b.friction * dt)
        b.width b.height shelves = some sh) :
    (b.update dt shelves r1 r2).x = b.x ∧ (b.update dt shelves r1 r2).y = b.y ∧
    ((b.update dt shelves r1 r2).vx, (b.update dt shelves r1 r2).vy) =
      restClamp (-(b.vx * b.friction) * (1/2) + (r1 - 1/2) * 20)
        (-(b.vy * b.friction) * (1/2) + (r2 - 1/2) * 20) := by
  unfold Book.update
  rw [if_neg (by simp [hheld])]
  simp [hshelved, hc]

/-- C3 (amended): when a free book's tentatively moved position overlaps a
shelf, the update reverts the position to the pre-move position, handles only
the first overlapping shelf in collection order, sets the velocity to the
reflected-and-halved velocity plus per-axis jitter in [-10, 10) (subject to
the end-of-update rest clamp), and — provided the pre-move position overlapped
no shelf — ends the update overlapping no shelf. -/
theorem update_collision_response (b : Book) (dt : ℚ) (shelves : List Shelf)
    (r1 r2 : ℚ) (sh : Shelf) (hheld : b.isHeld = false) (hshelved : b.isShelved = false)
    (hr1 : 0 ≤ r1 ∧ r1 < 1) (hr2 : 0 ≤ r2 ∧ r2 < 1)
    (hc : collidingShelf (b.x + b.vx * b.friction * dt) (b.y + b.vy * b.friction * dt)
        b.width b.height shelves = some sh) :
    (b.update dt shelves r1 r2).x = b.x ∧ (b.update dt shelves r1 r2).y = b.y ∧
    (∃ pre post, shelves = pre ++ sh :: post ∧
        ∀ s2 ∈ pre, overlapsShelf (b.x + b.vx * b.friction * dt)
          (b.y + b.vy * b.friction * dt) b.width b.height s2 = false) ∧
    overlapsShelf (b.x + b.vx * b.friction * dt) (b.y + b.vy * b.friction * dt)
        b.width b.height sh = true ∧
    (∃ j1 j2 : ℚ, -10 ≤ j1 ∧ j1 < 10 ∧ -10 ≤ j2 ∧ j2 < 10 ∧
        ((b.update dt shelves r1 r2).vx, (b.update dt shelves r1 r2).vy) =
          restClamp (-(b.vx * b.friction) * (1/2) + j1)
            (-(b.vy * b.friction) * (1/2) + j2)) ∧
    ((∀ s2 ∈ shelves, overlapsShelf b.x b.y b.width b.height s2 = false) →
        ∀ s2 ∈ shelves, overlapsShelf (b.update dt shelves r1 r2).x
          (b.update dt shelves r1 r2).y b.width b.height s2 = false) := by
  obtain ⟨hx, hy, hv⟩ := update_collision_eq b dt shelves r1 r2 sh hheld hshelved hc
  obtain ⟨hpsh, pre, post, heq, hall⟩ := find?_split _ shelves sh hc
  refine ⟨hx, hy, ⟨pre, post, heq, hall⟩, hpsh, ?_, ?_⟩
  · exact ⟨(r1 - 1/2) * 20, (r2 - 1/2) * 20,
      by linarith [hr1.1], by linarith [hr1.2], by linarith [hr2.1], by linarith [hr2.2], hv⟩
  · intro hpre s2 hs2
    rw [hx, hy]
    exact hpre s2 hs2

/-- Counterexample for C3 as stated: a concrete free book resting inside a
shelf's bounding box collides (its tentative position overlaps the shelf),
the update reverts it to its pre-move position — and that position still
overlaps the shelf, so the book does end the update overlapping a shelf. -/
theorem update_collision_overlap_cex :
    collidingShelf (wMovingBook.x + wMovingBook.vx * wMovingBook.friction * 1)
        (wMovingBook.y + wMovingBook.vy * wMovingBook.friction * 1)
        wMovingBook.width wMovingBook.height [wShelf] = some wShelf ∧
    (wMovingBook.update 1 [wShelf] (19/20) (1/2)).x = wMovingBook.x ∧
    (wMovingBook.update 1 [wShelf] (19/20) (1/2)).y = wMovingBook.y ∧
    overlapsShelf (wMovingBook.update 1 [wShelf] (19/20) (1/2)).x
        (wMovingBook.update 1 [wShelf] (19/20) (1/2)).y
        wMovingBook.width wMovingBook.height wShelf = true := by
  have hov : overlapsShelf (wMovingBook.x + wMovingBook.vx * wMovingBook.friction * 1)
      (wMovingBook.y + wMovingBook.vy * wMovingBook.friction * 1)
      wMovingBook.width wMovingBook.height wShelf = true := by
    simp only [overlapsShelf, wMovingBook, wShelf, Book.new, Shelf.new]
    norm_num
  have hc : collidingShelf (wMovingBook.x + wMovingBook.vx * wMovingBook.friction * 1)
      (wMovingBook.y + wMovingBook.vy * wMovingBook.friction * 1)
      wMovingBook.width wMovingBook.height [wShelf] = some wShelf :=
    List.find?_cons_of_pos [] hov
  obtain ⟨hx, hy, _⟩ := update_collision_eq wMovingBook 1 [wShelf] (19/20) (1/2) wShelf
    rfl rfl hc
  refine ⟨hc, hx, hy, ?_⟩
  rw [hx, hy]
  simp only [overlapsShelf, wMovingBook, wShelf, Book.new, Shelf.new]
  norm_num

/-- Witness for C3's amended theorem at the same concrete colliding input. -/
theorem update_collision_response_witness :
    (wMovingBook.update 1 [wShelf] (19/20) (1/2)).x = wMovingBook.x ∧
    (wMovingBook.update 1 [wShelf] (19/20) (1/2)).y = wMovingBook.y := by
  have hov : overlapsShelf (wMovingBook.x + wMovingBook.vx * wMovingBook.friction * 1)
      (wMovingBook.y + wMovingBook.vy * wMovingBook.friction * 1)
      wMovingBook.width wMovingBook.height wShelf = true := by
    simp only [overlapsShelf, wMovingBook, wShelf, Book.new, Shelf.new]
    norm_num
  have h := update_collision_response wMovingBook 1 [wShelf] (19/20) (1/2) wShelf
    rfl rfl (by norm_num) (by norm_num) (List.find?_cons_of_pos [] hov)
  exact ⟨h.1, h.2.1⟩

/-- The glow state after an unheld update as a function of the incremented
intensity. -/
theorem update_glow (b : Book) (dt : ℚ) (shelves : List Shelf) (r1 r2 : ℚ)
    (hheld : b.isHeld = false) :
    ((b.update dt shelves r1 r2).glowIntensity,
        (b.update dt shelves r1 r2).glowDirection) =
      (if b.glowIntensity + b.glowDirection * dt * 2 ≥ 1 then ((1 : ℚ), (-1 : ℚ))
       else if b.glowIntensity + b.glowDirection * dt * 2 ≤ 3/10 then (3/10, 1)
       else (b.glowIntensity + b.glowDirection * dt * 2, b.glowDirection)) := by
  have hni : ¬ b.isHeld = true := by simp [hheld]
  unfold Book.update
  rw [if_neg hni]

/-- C8 (amended): after any unheld update the glow intensity lies in
[0.3, 1]; the glow direction changes only when the resulting intensity sits
at a bound; and from any state already inside the band with direction ±1 and
positive delta time, the direction reverses exactly when the resulting
intensity reaches a bound. -/
theorem glow_triangle_wave (b : Book) (dt : ℚ) (shelves : List Shelf) (r1 r2 : ℚ)
    (hheld : b.isHeld = false) :
    (3/10 ≤ (b.update dt shelves r1 r2).glowIntensity ∧
      (b.update dt shelves r1 r2).glowIntensity ≤ 1) ∧
    ((b.update dt shelves r1 r2).glowDirection ≠ b.glowDirection →
      (b.update dt shelves r1 r2).glowIntensity = 1 ∨
        (b.update dt shelves r1 r2).glowIntensity = 3/10) ∧
    (0 < dt → 3/10 ≤ b.glowIntensity → b.glowIntensity ≤ 1 →
      (b.glowDirection = 1 ∨ b.glowDirection = -1) →
      ((b.update dt shelves r1 r2).glowDirection ≠ b.glowDirection ↔
        ((b.update dt shelves r1 r2).glowIntensity = 1 ∨
          (b.update dt shelves r1 r2).glowIntensity = 3/10))) := by
  have h := update_glow b dt shelves r1 r2 hheld
  by_cases h1 : b.glowIntensity + b.glowDirection * dt * 2 ≥ 1
  · rw [if_pos h1] at h
    rw [Prod.mk.injEq] at h
    obtain ⟨hgi, hgd⟩ := h
    refine ⟨by rw [hgi]; norm_num, fun _ => Or.inl hgi, ?_⟩
    intro hdt h03 h11 hdir
    constructor
    · intro _
      exact Or.inl hgi
    · intro _
      rw [hgd]
      rcases hdir with hd | hd
      · rw [hd]
        norm_num
      · exfalso
        rw [hd] at h1
        nlinarith
  · rw [if_neg h1] at h
    by_cases h2 : b.glowIntensity + b.glowDirection * dt * 2 ≤ 3/10
    · rw [if_pos h2] at h
      rw [Prod.mk.injEq] at h
      obtain ⟨hgi, hgd⟩ := h
      refine ⟨by rw [hgi]; norm_num, fun _ => Or.inr hgi, ?_⟩
      intro hdt h03 h11 hdir
      constructor
      · intro _
        exact Or.inr hgi
      · intro _
        rw [hgd]
        rcases hdir with hd | hd
        · exfalso
          rw [hd] at h2
          nlinarith
        · rw [hd]
          norm_num
    · rw [if_neg h2] at h
      rw [Prod.mk.injEq] at h
      obtain ⟨hgi, hgd⟩ := h
      push_neg at h1 h2
      refine ⟨by rw [hgi]; constructor <;> linarith, ?_, ?_⟩
      · intro hne
        exact absurd hgd hne
      · intro hdt h03 h11 hdir
        constructor
        · intro hne
          exact absurd hgd hne
        · intro hb
          exfalso
          rcases hb with hb | hb <;> rw [hgi] at hb <;> linarith

/-- Counterexample for C8 as stated: a concrete freshly constructed free book
(glow intensity 0, direction +1) updated with a small delta time reaches the
lower bound 0.3 exactly, yet its glow direction does not reverse — so the
direction does not reverse "exactly when" the intensity reaches a bound. -/
theorem glow_reversal_cex :
    wFreshBook.isHeld = false ∧
    (wFreshBook.update (1/20) [] 0 0).glowIntensity = 3/10 ∧
    (wFreshBook.update (1/20) [] 0 0).glowDirection = wFreshBook.glowDirection ∧
    ¬ ((wFreshBook.update (1/20) [] 0 0).glowDirection ≠ wFreshBook.glowDirection ↔
        ((wFreshBook.update (1/20) [] 0 0).glowIntensity = 1 ∨
          (wFreshBook.update (1/20) [] 0 0).glowIntensity = 3/10)) := by
  have h := update_glow wFreshBook (1/20) [] 0 0 rfl
  rw [if_neg (by simp only [wFreshBook, Book.new]; norm_num),
    if_pos (by simp only [wFreshBook, Book.new]; norm_num)] at h
  rw [Prod.mk.injEq] at h
  obtain ⟨hgi, hgd⟩ := h
  have hdir : wFreshBook.glowDirection = 1 := rfl
  refine ⟨rfl, hgi, by rw [hgd, hdir], ?_⟩
  intro hiff
  exact (hiff.mpr (Or.inr hgi)) (by rw [hgd, hdir])

/-- Witness for C8's amended theorem: a concrete mid-band book stays inside
[0.3, 1] after an update. -/
theorem glow_triangle_wave_witness :
    3/10 ≤ (wSlowBook.update (1/10) [] 0 0).glowIntensity ∧
    (wSlowBook.update (1/10) [] 0 0).glowIntensity ≤ 1 :=
  (glow_triangle_wave wSlowBook (1/10) [] 0 0 rfl).1

end Librarian
